import Mathlib

/-!
Shallow embedding of the live dart-scoring engine of the good-grouping
repository.

The scoring rules engine (`processCricketThrow`, `process01Throw`,
`processAroundTheWorldThrow`, the completion checks, `advanceTurn`,
`reverseTurn`, `handleBust`, `calculateRawValue`) is translated from the
game-logic module.  The WebSocket handlers `handleThrowDart` and
`handleUndoThrow` are translated from the live-games route module; the
SQLite-backed store (`liveGames.findById`, `addThrow`, `updateTurnState`,
`getThrowsByPlayerAndTurn`, `getLastThrow`, `deleteThrow`, the per-player
update statements) is modelled as a pure state: a list of `LiveGame`
records, each carrying its players and its throws ordered by
`throw_order`, exactly the shape `liveGames.findById` returns.

JavaScript numbers are modelled as `Int`; the JS falsy test on a number
(`x || d`) is `jsOrElse`; a JS value that can be `null` is an `Option`;
JS `%` (truncated remainder) is `Int.tmod`.
-/

namespace GoodGrouping

/-- One row of `live_game_players` (plus the joined user name is irrelevant
here).  All numeric columns default to `0` in the schema except
`remaining_score` (set at creation for 01 games) and `current_target`
(default 1); they are modelled as `Int` like every JS number. -/
structure Player where
  id : Nat
  user_id : Nat
  player_order : Int
  marks_15 : Int := 0
  marks_16 : Int := 0
  marks_17 : Int := 0
  marks_18 : Int := 0
  marks_19 : Int := 0
  marks_20 : Int := 0
  marks_bull : Int := 0
  cricket_points : Int := 0
  remaining_score : Int := 0
  current_target : Int := 1
deriving Repr, DecidableEq

/-- One row of `live_game_throws`.  `segment` is `NULL` for a miss;
`is_bust` is stored as 0/1 and read back through JS truthiness, modelled
as `Bool`.  The `id` column (a uuid in the source) is modelled as a `Nat`
chosen by `addThrow`. -/
structure ThrowRec where
  id : Nat
  player_id : Nat
  throw_order : Nat
  turn_number : Int
  dart_in_turn : Int
  segment : Option Int
  multiplier : Int
  raw_value : Int
  is_bust : Bool
  entered_by : Nat
deriving Repr, DecidableEq

/-- The `game_type` column: `'Cricket' | '301' | '501' | 'Around the World'`. -/
inductive GameType
  | cricket
  | x301
  | x501
  | aroundTheWorld
deriving Repr, DecidableEq

/-- The `status` column: `'waiting' | 'playing' | 'finished'`. -/
inductive GameStatus
  | waiting
  | playing
  | finished
deriving Repr, DecidableEq

/-- One live game as returned by `liveGames.findById`: the `live_games`
row together with its players (ordered by `player_order`) and its throws
(ordered by `throw_order`). -/
structure LiveGame where
  id : Nat
  game_type : GameType
  status : GameStatus
  starting_score : Option Int
  created_by : Nat
  current_player_index : Int
  current_dart : Int
  current_turn : Int
  winner_player_id : Option Nat := none
  players : List Player
  throws : List ThrowRec := []
deriving Repr, DecidableEq

/-- JS `x || y` on a number `x`: `0` is falsy. -/
def jsOrElse (x y : Int) : Int := if x = 0 then y else x

/-- JS `x || d` where `x` may be `null` (and `0` is falsy too). -/
def jsOrDefault (x : Option Int) (d : Int) : Int :=
  match x with
  | none => d
  | some v => if v = 0 then d else v

/-- JS array indexing `players[i]` with a possibly out-of-range index. -/
def jsIndex (l : List Player) (i : Int) : Option Player :=
  if 0 ≤ i then l.get? i.toNat else none

/-- Replace the first player with the given id (JS mutates the object
returned by `players.find(p => p.id === playerId)`). -/
def updateFirst (l : List Player) (pid : Nat) (f : Player → Player) : List Player :=
  match l with
  | [] => []
  | p :: rest => if p.id = pid then f p :: rest else p :: updateFirst rest pid f

/-- `const CRICKET_NUMBERS = [15, 16, 17, 18, 19, 20, 25];` -/
def CRICKET_NUMBERS : List Int := [15, 16, 17, 18, 19, 20, 25]

/-- Read the mark counter selected by `marks_${segment}` / `marks_bull`
for a cricket segment; `0` for any other segment (such fields are never
read by the engine because of the `CRICKET_NUMBERS` guard). -/
def marksFor (p : Player) (segment : Int) : Int :=
  if segment = 25 then p.marks_bull
  else if segment = 15 then p.marks_15
  else if segment = 16 then p.marks_16
  else if segment = 17 then p.marks_17
  else if segment = 18 then p.marks_18
  else if segment = 19 then p.marks_19
  else if segment = 20 then p.marks_20
  else 0

/-- The mark field selected by `marks_${segment}` when it exists on the
player record; `none` models the JS `undefined` read for a non-cricket
segment (used by the undo handler's `|| player.marks_bull || 0` chain). -/
def marksField (p : Player) (segment : Int) : Option Int :=
  if segment = 25 then some p.marks_bull
  else if segment = 15 then some p.marks_15
  else if segment = 16 then some p.marks_16
  else if segment = 17 then some p.marks_17
  else if segment = 18 then some p.marks_18
  else if segment = 19 then some p.marks_19
  else if segment = 20 then some p.marks_20
  else none

/-- Write the mark counter selected by `marks_${segment}` / `marks_bull`.
For a non-cricket segment the JS assignment creates a junk property that
no reader ever consults; it is modelled as a no-op. -/
def setMarksFor (p : Player) (segment : Int) (v : Int) : Player :=
  if segment = 25 then { p with marks_bull := v }
  else if segment = 15 then { p with marks_15 := v }
  else if segment = 16 then { p with marks_16 := v }
  else if segment = 17 then { p with marks_17 := v }
  else if segment = 18 then { p with marks_18 := v }
  else if segment = 19 then { p with marks_19 := v }
  else if segment = 20 then { p with marks_20 := v }
  else p

/-- Result object of `processCricketThrow`.  `newMarks` is only attached
when a cricket number was actually hit. -/
structure CricketOutcome where
  playerId : Nat
  segment : Option Int
  multiplier : Int
  marksAdded : Int
  pointsScored : Int
  closedNumber : Bool
  newMarks : Option Int := none
deriving Repr, DecidableEq

/-- `processCricketThrow(gameState, playerId, segment, multiplier)`.
`none` models the thrown `Error('Player not found')`.  The updated game
state carries the mutation of the found player. -/
def processCricketThrow (g : LiveGame) (playerId : Nat) (segment : Option Int)
    (multiplier : Int) : Option (LiveGame × CricketOutcome) :=
  match g.players.find? (fun p => p.id = playerId) with
  | none => none
  | some player =>
    let base : CricketOutcome :=
      { playerId := playerId
        segment := segment
        multiplier := multiplier
        marksAdded := 0
        pointsScored := 0
        closedNumber := false }
    match segment with
    | none => some (g, base)
    | some s =>
      -- `!segment` also treats segment 0 as a miss
      if s = 0 then some (g, base)
      else if s ∉ CRICKET_NUMBERS then some (g, base)
      else
        let currentMarks := jsOrElse (marksFor player s) 0
        let marksToAdd := multiplier
        let otherPlayers := g.players.filter (fun p => p.id ≠ playerId)
        let isClosedByOthers := otherPlayers.all (fun p => 3 ≤ marksFor p s)
        let newMarks := currentMarks + marksToAdd
        let pointsScored :=
          if 3 ≤ currentMarks ∧ ¬ isClosedByOthers then marksToAdd * s
          else if currentMarks < 3 ∧ 3 < newMarks ∧ ¬ isClosedByOthers then
            (newMarks - 3) * s
          else 0
        let player' :=
          let p1 := setMarksFor player s newMarks
          { p1 with cricket_points := jsOrElse p1.cricket_points 0 + pointsScored }
        some ({ g with players := updateFirst g.players playerId (fun _ => player') },
          { base with
            marksAdded := marksToAdd
            pointsScored := pointsScored
            newMarks := some newMarks
            closedNumber := decide (3 ≤ newMarks ∧ currentMarks < 3) })

/-- Winner object returned by the completion checks. -/
structure Winner where
  winnerId : Nat
  winnerUserId : Nat
  reason : String
deriving Repr, DecidableEq

/-- `p` has at least three marks on all seven cricket numbers. -/
def closedAllNumbers (p : Player) : Bool :=
  CRICKET_NUMBERS.all (fun n => 3 ≤ marksFor p n)

/-- Head of the JS stable sort by descending `cricket_points`: the first
player holding the maximum point total. -/
def firstMaxByPoints (l : List Player) : Option Player :=
  l.foldl (fun acc p =>
    match acc with
    | none => some p
    | some q => if q.cricket_points < p.cricket_points then some p else acc) none

/-- `checkCricketComplete(gameState)`.  With an empty player list the JS
dereferences `sorted[0].id` and crashes; that unreachable case is
modelled as `none`. -/
def checkCricketComplete (g : LiveGame) : Option Winner :=
  if g.players.all closedAllNumbers then
    match firstMaxByPoints g.players with
    | some p => some { winnerId := p.id, winnerUserId := p.user_id, reason := "all_closed" }
    | none => none
  else
    match g.players.find? (fun p => closedAllNumbers p &&
        (g.players.filter (fun q => q.id ≠ p.id)).all
          (fun q => jsOrElse q.cricket_points 0 < jsOrElse p.cricket_points 0)) with
    | some p => some { winnerId := p.id
                       winnerUserId := p.user_id
                       reason := "closed_all_with_lead" }
    | none => none

/-- Result object of `process01Throw`. -/
structure O1Outcome where
  playerId : Nat
  segment : Option Int
  multiplier : Int
  rawValue : Int
  isBust : Bool
  newScore : Int
deriving Repr, DecidableEq

/-- `process01Throw(gameState, playerId, segment, multiplier)`. -/
def process01Throw (g : LiveGame) (playerId : Nat) (segment : Option Int)
    (multiplier : Int) : Option (LiveGame × O1Outcome) :=
  match g.players.find? (fun p => p.id = playerId) with
  | none => none
  | some player =>
    let base : O1Outcome :=
      { playerId := playerId
        segment := segment
        multiplier := multiplier
        rawValue := 0
        isBust := false
        newScore := player.remaining_score }
    match segment with
    | none => some (g, base)
    | some s =>
      -- `!segment` also treats segment 0 as a miss
      if s = 0 then some (g, base)
      else
        let rawValue := s * multiplier
        let newScore := player.remaining_score - rawValue
        if newScore < 0 ∨ newScore = 1 ∨ (newScore = 0 ∧ multiplier ≠ 2) then
          some (g, { base with rawValue := rawValue, isBust := true })
        else
          some ({ g with players := updateFirst g.players playerId (fun p => { p with remaining_score := newScore }) },
            { base with
              rawValue := rawValue
              newScore := newScore })

/-- `check01Complete(gameState)`: the first player whose remaining score
is exactly 0 wins by checkout. -/
def check01Complete (g : LiveGame) : Option Winner :=
  match g.players.find? (fun p => p.remaining_score = 0) with
  | some p => some { winnerId := p.id, winnerUserId := p.user_id, reason := "checked_out" }
  | none => none

/-- Result object of `processAroundTheWorldThrow`. -/
structure ATWOutcome where
  playerId : Nat
  segment : Option Int
  multiplier : Int
  hit : Bool
  newTarget : Int
deriving Repr, DecidableEq

/-- `processAroundTheWorldThrow(gameState, playerId, segment, multiplier)`. -/
def processAroundTheWorldThrow (g : LiveGame) (playerId : Nat) (segment : Option Int)
    (multiplier : Int) : Option (LiveGame × ATWOutcome) :=
  match g.players.find? (fun p => p.id = playerId) with
  | none => none
  | some player =>
    let targetSegment := if player.current_target = 21 then 25 else player.current_target
    if segment = some targetSegment then
      let newTarget := player.current_target + 1
      some ({ g with players := updateFirst g.players playerId (fun p => { p with current_target := newTarget }) },
        { playerId := playerId
          segment := segment
          multiplier := multiplier
          hit := true
          newTarget := newTarget })
    else
      some (g,
        { playerId := playerId
          segment := segment
          multiplier := multiplier
          hit := false
          newTarget := player.current_target })

/-- `checkAroundTheWorldComplete(gameState)`: the first player whose
current target exceeds 21 has completed the sequence. -/
def checkAroundTheWorldComplete (g : LiveGame) : Option Winner :=
  match g.players.find? (fun p => 21 < p.current_target) with
  | some p => some { winnerId := p.id
                     winnerUserId := p.user_id
                     reason := "completed_sequence" }
  | none => none

/-- `advanceTurn(gameState)`: dart 1→2→3, then wrap to the next player
and increment the turn number.  JS `%` is the truncated remainder. -/
def advanceTurn (g : LiveGame) : LiveGame :=
  if g.current_dart < 3 then
    { g with current_dart := g.current_dart + 1 }
  else
    { g with
      current_dart := 1
      current_player_index :=
        Int.tmod (g.current_player_index + 1) (g.players.length : Int)
      current_turn := g.current_turn + 1 }

/-- `reverseTurn(gameState)`: exact source translation of the undo
direction, including the guard that never lets the turn drop below 1. -/
def reverseTurn (g : LiveGame) : LiveGame :=
  if 1 < g.current_dart then
    { g with current_dart := g.current_dart - 1 }
  else
    let g' :=
      { g with
        current_dart := 3
        current_player_index :=
          Int.tmod (g.current_player_index - 1 + (g.players.length : Int))
            (g.players.length : Int) }
    if 1 < g.current_turn then { g' with current_turn := g.current_turn - 1 } else g'

/-- `handleBust(gameState, playerId, turnStartScore)`: restore the
player's remaining score to the turn-start value (no-op if absent). -/
def handleBust (g : LiveGame) (playerId : Nat) (turnStartScore : Int) : LiveGame :=
  { g with players := updateFirst g.players playerId (fun p => { p with remaining_score := turnStartScore }) }

/-- `calculateRawValue(segment, multiplier)`. -/
def calculateRawValue (segment : Option Int) (multiplier : Int) : Int :=
  match segment with
  | none => 0
  | some s => if s = 0 then 0 else s * multiplier

/-- Dispatched result of `processThrow`. -/
inductive ThrowOutcome
  | cricket (o : CricketOutcome)
  | o1 (o : O1Outcome)
  | atw (o : ATWOutcome)
deriving Repr, DecidableEq

/-- `throwResult.isBust` read on any outcome object: only the 01 result
carries the flag, elsewhere the JS read is `undefined`, hence falsy. -/
def outcomeIsBust : ThrowOutcome → Bool
  | .o1 o => o.isBust
  | _ => false

/-- `processThrow(gameState, playerId, segment, multiplier)`: dispatch on
the game type. -/
def processThrow (g : LiveGame) (playerId : Nat) (segment : Option Int)
    (multiplier : Int) : Option (LiveGame × ThrowOutcome) :=
  match g.game_type with
  | .cricket =>
    (processCricketThrow g playerId segment multiplier).map
      (fun r => (r.1, ThrowOutcome.cricket r.2))
  | .x301 =>
    (process01Throw g playerId segment multiplier).map
      (fun r => (r.1, ThrowOutcome.o1 r.2))
  | .x501 =>
    (process01Throw g playerId segment multiplier).map
      (fun r => (r.1, ThrowOutcome.o1 r.2))
  | .aroundTheWorld =>
    (processAroundTheWorldThrow g playerId segment multiplier).map
      (fun r => (r.1, ThrowOutcome.atw r.2))

/-- `checkGameComplete(gameState)`: dispatch on the game type. -/
def checkGameComplete (g : LiveGame) : Option Winner :=
  match g.game_type with
  | .cricket => checkCricketComplete g
  | .x301 => check01Complete g
  | .x501 => check01Complete g
  | .aroundTheWorld => checkAroundTheWorldComplete g

/-- The authenticated identity bound to a WebSocket connection
(`ws.userId`, `ws.userName`). -/
structure WsClient where
  userId : Nat
  userName : String
deriving Repr, DecidableEq

/-- Server-to-client messages produced by the two handlers, modelling the
payload fields the claims are concerned with. -/
inductive WireMsg
  | throwRecorded (throwId : Nat) (playerId : Nat) (segment : Option Int)
      (multiplier : Int) (rawValue : Int) (isBust : Bool) (enteredBy : String)
  | gameEnded (winnerId : Nat) (winnerUserId : Nat) (reason : String)
  | throwUndone (throwId : Nat) (playerId : Nat) (undoneBy : String)
  | gameState (g : LiveGame)
deriving Repr, DecidableEq

/-- Observable actions of a handler.  `errorTo` is `sendError(ws, msg)`
to the originating connection only; `broadcast` is `broadcastToRoom`;
`closeConnection` (`ws.close`/`ws.terminate`) and `deleteRoom`
(`gameRooms.delete`) occur elsewhere in the connection layer and never in
these handlers, but are part of the action alphabet so that their absence
is expressible. -/
inductive Effect
  | errorTo (msg : String)
  | broadcast (gameId : Nat) (msg : WireMsg)
  | closeConnection
  | deleteRoom (gameId : Nat)
deriving Repr, DecidableEq

/-- Result of running a handler: the persistent store afterwards plus the
emitted actions in order. -/
structure HandlerResult where
  store : List LiveGame
  effects : List Effect
deriving Repr, DecidableEq

/-- `liveGames.findById`: the `live_games` row with the given id together
with its players and throws. -/
def findById (store : List LiveGame) (gid : Nat) : Option LiveGame :=
  store.find? (fun g => g.id = gid)

/-- Write a game record back: every SQL `UPDATE ... WHERE id = ?` (and
the throw insert/delete) targets the row(s) with that id. -/
def saveGame (store : List LiveGame) (g : LiveGame) : List LiveGame :=
  store.map (fun x => if x.id = g.id then g else x)

/-- `segment || null` in the handler: a falsy segment (missing or 0)
becomes a miss. -/
def jsSegOrNull (segment : Option Int) : Option Int :=
  match segment with
  | none => none
  | some s => if s = 0 then none else some s

/-- `multiplier || 1` in the handler: a falsy multiplier (missing or 0)
becomes 1. -/
def jsMultOr1 (multiplier : Option Int) : Int :=
  match multiplier with
  | none => 1
  | some m => if m = 0 then 1 else m

/-- The turn-start score used on a bust: the score cached at dart 1 when
the current turn has no recorded throws, otherwise (when the turn has
recorded throws) the starting score minus every non-bust raw value of
the acting player's earlier turns — the replay loop of the source. -/
def computeTurnStart (g1 : LiveGame) (currentPlayer : Player)
    (turnStartScore0 : Option Int) : Option Int :=
  let turnThrows := g1.throws.filter
    (fun t => t.player_id = currentPlayer.id ∧ t.turn_number = g1.current_turn)
  if turnThrows = [] ∧ turnStartScore0 ≠ none then turnStartScore0
  else if turnThrows ≠ [] then
    let startingScore := jsOrDefault g1.starting_score 501
    some (g1.throws.foldl (fun score t =>
      if t.player_id = currentPlayer.id ∧ t.turn_number < g1.current_turn
          ∧ t.is_bust = false then
        score - t.raw_value
      else score) startingScore)
  else turnStartScore0

/-- The bust block of `handleThrowDart`: on a bust, restore the computed
turn-start score (when one was obtained); otherwise leave the state. -/
def applyBustRecovery (isBust : Bool) (g1 : LiveGame) (currentPlayer : Player)
    (turnStartScore0 : Option Int) : LiveGame :=
  if isBust then
    match computeTurnStart g1 currentPlayer turnStartScore0 with
    | some s => handleBust g1 currentPlayer.id s
    | none => g1
  else g1

/-- The throw row inserted by `liveGames.addThrow` (uuid modelled by the
next throw order). -/
def mkRecordedThrow (ws : WsClient) (g2 : LiveGame) (currentPlayer : Player)
    (seg : Option Int) (mult rawValue : Int) (isBust : Bool) : ThrowRec :=
  { id := g2.throws.length + 1
    player_id := currentPlayer.id
    throw_order := g2.throws.length + 1
    turn_number := g2.current_turn
    dart_in_turn := g2.current_dart
    segment := seg
    multiplier := mult
    raw_value := rawValue
    is_bust := isBust
    entered_by := ws.userId }

/-- The completion block of `handleThrowDart`: if the rules engine
reports a winner, finish the match (no advance) and broadcast the end;
otherwise advance the turn and broadcast the recorded throw.  In both
cases the updated game is written back and the fresh state broadcast. -/
def finishOrAdvance (gid : Nat) (ws : WsClient) (currentPlayer : Player)
    (seg : Option Int) (mult rawValue : Int) (isBust : Bool) (newThrowId : Nat)
    (store : List LiveGame) (g3 : LiveGame) : HandlerResult :=
  match checkGameComplete g3 with
  | some w =>
    let g4 := { g3 with
      status := GameStatus.finished
      winner_player_id := some w.winnerId }
    ⟨saveGame store g4,
     [Effect.broadcast gid (WireMsg.gameEnded w.winnerId w.winnerUserId w.reason),
      Effect.broadcast gid (WireMsg.gameState g4)]⟩
  | none =>
    let g4 := advanceTurn g3
    ⟨saveGame store g4,
     [Effect.broadcast gid (WireMsg.throwRecorded newThrowId currentPlayer.id
        seg mult rawValue isBust ws.userName),
      Effect.broadcast gid (WireMsg.gameState g4)]⟩

/-- `handleThrowDart(ws, payload)` from the live-games WebSocket route.
The store models the SQLite tables; the fetched `game` object and the
database stay in sync because every in-memory mutation is mirrored by an
UPDATE, so the final store holds the mutated game with the new throw
appended.  A JS exception escaping the handler (impossible branches kept
for totality) is caught by the message loop, which sends
`Invalid message format`. -/
def handleThrowDart (ws : WsClient) (gameId : Option Nat) (segment : Option Int)
    (multiplier : Option Int) (store : List LiveGame) : HandlerResult :=
  match gameId with
  | none => ⟨store, [Effect.errorTo "Game ID required"]⟩
  | some gid =>
    match findById store gid with
    | none => ⟨store, [Effect.errorTo "Game not found"]⟩
    | some game =>
      if game.status ≠ GameStatus.playing then
        ⟨store, [Effect.errorTo "Game is not in progress"]⟩
      else
        match jsIndex game.players game.current_player_index with
        | none => ⟨store, [Effect.errorTo "Invalid game state"]⟩
        | some currentPlayer =>
          let turnStartScore0 : Option Int :=
            if (game.game_type = GameType.x301 ∨ game.game_type = GameType.x501)
                ∧ game.current_dart = 1 then
              some currentPlayer.remaining_score
            else none
          let seg := jsSegOrNull segment
          let mult := jsMultOr1 multiplier
          match processThrow game currentPlayer.id seg mult with
          | none => ⟨store, [Effect.errorTo "Invalid message format"]⟩
          | some (g1, outcome) =>
            let rawValue := calculateRawValue seg mult
            let isBust := outcomeIsBust outcome
            -- bust handling for 01 games: recover the turn-start score
            let g2 := applyBustRecovery isBust g1 currentPlayer turnStartScore0
            -- record the throw
            let newThrow := mkRecordedThrow ws g2 currentPlayer seg mult rawValue isBust
            let g3 := { g2 with throws := g2.throws ++ [newThrow] }
            -- JS checks the in-memory game, whose players equal those of g3
            finishOrAdvance gid ws currentPlayer seg mult rawValue isBust
              newThrow.id store g3

/-- JS `a || b` where `a` may be an absent field (`undefined`) and is
otherwise a number whose 0 is falsy. -/
def jsOrElseOpt (a : Option Int) (b : Int) : Int :=
  match a with
  | none => b
  | some v => jsOrElse v b

/-- `handleUndoThrow(ws, payload)` from the live-games WebSocket route.
The last throw is the row with the greatest `throw_order`, i.e. the last
element of the throws list. -/
def handleUndoThrow (ws : WsClient) (gameId : Option Nat)
    (store : List LiveGame) : HandlerResult :=
  match gameId with
  | none => ⟨store, [Effect.errorTo "Game ID required"]⟩
  | some gid =>
    match findById store gid with
    | none => ⟨store, [Effect.errorTo "Game not found"]⟩
    | some game =>
      if game.status ≠ GameStatus.playing then
        ⟨store, [Effect.errorTo "Game is not in progress"]⟩
      else
        match game.throws.getLast? with
        | none => ⟨store, [Effect.errorTo "No throws to undo"]⟩
        | some lastThrow =>
          match game.players.find? (fun p => p.id = lastThrow.player_id) with
          | none => ⟨store, [Effect.errorTo "Player not found"]⟩
          | some player =>
            -- reverse the turn state first
            let g1 := reverseTurn game
            -- then reverse the throw effect based on game type
            let g2 :=
              match g1.game_type with
              | GameType.cricket =>
                match lastThrow.segment with
                | none => g1
                | some s =>
                  -- `if (lastThrow.segment)`: segment 0 is falsy
                  if s = 0 then g1
                  else
                    let currentMarks :=
                      jsOrElseOpt (marksField player s) (jsOrElse player.marks_bull 0)
                    let newMarks := max 0 (currentMarks - lastThrow.multiplier)
                    let marksBeforeThrow := currentMarks - lastThrow.multiplier
                    let points :=
                      if 3 ≤ marksBeforeThrow then lastThrow.multiplier * s
                      else if 3 < currentMarks then (currentMarks - 3) * s
                      else 0
                    let player' :=
                      let p1 := setMarksFor player s newMarks
                      { p1 with cricket_points := max 0 (jsOrElse p1.cricket_points 0 - points) }
                    { g1 with players := updateFirst g1.players player.id (fun _ => player') }
              | GameType.x301 =>
                if lastThrow.is_bust = false then
                  { g1 with players := updateFirst g1.players player.id (fun p => { p with remaining_score := jsOrElse p.remaining_score 0 + lastThrow.raw_value }) }
                else g1
              | GameType.x501 =>
                if lastThrow.is_bust = false then
                  { g1 with players := updateFirst g1.players player.id (fun p => { p with remaining_score := jsOrElse p.remaining_score 0 + lastThrow.raw_value }) }
                else g1
              | GameType.aroundTheWorld =>
                let previousTarget := player.current_target - 1
                let expectedSegment := if previousTarget = 21 then 25 else previousTarget
                if lastThrow.segment = some expectedSegment ∧ 1 ≤ previousTarget then
                  { g1 with players := updateFirst g1.players player.id (fun p => { p with current_target := previousTarget }) }
                else g1
            -- delete the throw, persist the turn state
            let g3 := { g2 with throws := g2.throws.filter (fun t => t.id ≠ lastThrow.id) }
            ⟨saveGame store g3,
             [Effect.broadcast gid (WireMsg.throwUndone lastThrow.id player.id ws.userName),
              Effect.broadcast gid (WireMsg.gameState g3)]⟩

/-- A two-player 501 game used for concrete checks below. -/
def sample501 (score1 score2 : Int) (dart : Int) : LiveGame :=
  { id := 1
    game_type := .x501
    status := .playing
    starting_score := some 501
    created_by := 1
    current_player_index := 0
    current_dart := dart
    current_turn := 1
    players := [{ id := 1, user_id := 1, player_order := 0, remaining_score := score1 },
                { id := 2, user_id := 2, player_order := 1, remaining_score := score2 }] }

/-- The score the acting participant held before the first dart of the
current turn, stated from the spec's words: committed (non-bust) throws
subtract their raw value from the remaining score and bust throws leave
it unchanged, so the turn-start score is the current remaining score plus
the raw values of the participant's committed throws already recorded in
the current turn. -/
def turnStartScoreSpec (g : LiveGame) (pid : Nat) : Int :=
  match g.players.find? (fun p => p.id = pid) with
  | none => 0
  | some p =>
    p.remaining_score +
      ((g.throws.filter
        (fun t => t.player_id = pid ∧ t.turn_number = g.current_turn ∧ t.is_bust = false)).map
          (fun t => t.raw_value)).sum

/-- Helper to build a throw record for concrete scenarios. -/
def mkThrow (id pid ord : Nat) (turn dart : Int) (seg : Option Int)
    (mult raw : Int) (bust : Bool) : ThrowRec :=
  { id := id
    player_id := pid
    throw_order := ord
    turn_number := turn
    dart_in_turn := dart
    segment := seg
    multiplier := mult
    raw_value := raw
    is_bust := bust
    entered_by := 1 }

/-- A reachable 301 state: player 1 opened with three T20s (turn 1),
busted turn 3 after a committed T20 (dart 1 scored, dart 2 busted and
reverted the turn, dart 3 missed), and has now thrown a committed T20 as
dart 1 of turn 5, leaving 61 on the board with a turn-start score of 121.
Player 2 missed every dart. -/
def c2Game : LiveGame :=
  { id := 1
    game_type := .x301
    status := .playing
    starting_score := some 301
    created_by := 1
    current_player_index := 0
    current_dart := 2
    current_turn := 5
    players := [{ id := 1, user_id := 1, player_order := 0, remaining_score := 61 },
                { id := 2, user_id := 2, player_order := 1, remaining_score := 301 }]
    throws :=
      [mkThrow 1 1 1 1 1 (some 20) 3 60 false,
       mkThrow 2 1 2 1 2 (some 20) 3 60 false,
       mkThrow 3 1 3 1 3 (some 20) 3 60 false,
       mkThrow 4 2 4 2 1 none 1 0 false,
       mkThrow 5 2 5 2 2 none 1 0 false,
       mkThrow 6 2 6 2 3 none 1 0 false,
       mkThrow 7 1 7 3 1 (some 20) 3 60 false,
       mkThrow 8 1 8 3 2 (some 20) 3 60 true,
       mkThrow 9 1 9 3 3 none 1 0 false,
       mkThrow 10 2 10 4 1 none 1 0 false,
       mkThrow 11 2 11 4 2 none 1 0 false,
       mkThrow 12 2 12 4 3 none 1 0 false,
       mkThrow 13 1 13 5 1 (some 20) 3 60 false] }

example : turnStartScoreSpec c2Game 1 = 121 := by decide

example :
    ((handleThrowDart ⟨1, "Alice"⟩ (some 1) (some 20) (some 3) [c2Game]).store.head?.bind
      (fun g => (g.players.find? (fun p => p.id = 1)).map Player.remaining_score)) =
    some 61 := by decide

example :
    (process01Throw (sample501 40 501 1) 1 (some 20) 2).map
      (fun r => (r.2.isBust, r.2.newScore)) = some (false, 0) := by
  decide

example :
    (process01Throw (sample501 32 501 1) 1 (some 20) 2).map
      (fun r => (r.2.isBust, r.2.newScore)) = some (true, 32) := by
  decide

/-! ### Helper lemmas about the list operations of the embedding -/

theorem updateFirst_length (l : List Player) (pid : Nat) (f : Player → Player) :
    (updateFirst l pid f).length = l.length := by
  induction l with
  | nil => rfl
  | cons p rest ih =>
    unfold updateFirst
    by_cases h : p.id = pid <;> simp [h, ih]

theorem updateFirst_mem (l : List Player) (pid : Nat) (f : Player → Player)
    (x : Player) (hx : x ∈ updateFirst l pid f) : x ∈ l ∨ ∃ y ∈ l, x = f y := by
  induction l with
  | nil => simp [updateFirst] at hx
  | cons p rest ih =>
    unfold updateFirst at hx
    by_cases h : p.id = pid
    · simp only [h, if_true, List.mem_cons] at hx
      rcases hx with hx | hx
      · exact Or.inr ⟨p, List.mem_cons_self .., hx⟩
      · exact Or.inl (List.mem_cons_of_mem _ hx)
    · simp only [h, if_false, List.mem_cons] at hx
      rcases hx with hx | hx
      · exact Or.inl (by simp [hx])
      · rcases ih hx with h1 | ⟨y, hy, hxy⟩
        · exact Or.inl (List.mem_cons_of_mem _ h1)
        · exact Or.inr ⟨y, List.mem_cons_of_mem _ hy, hxy⟩

theorem updateFirst_find?_id (l : List Player) (pid : Nat) (f : Player → Player)
    (hid : ∀ p, (f p).id = p.id) :
    (updateFirst l pid f).find? (fun p => p.id = pid) =
      (l.find? (fun p => p.id = pid)).map f := by
  induction l with
  | nil => rfl
  | cons p rest ih =>
    unfold updateFirst
    by_cases h : p.id = pid
    · simp [List.find?_cons, hid, h]
    · simp [List.find?_cons, h, ih]

/-- After lowering the first player with the given id to remaining score
0, that player is the first (and only) player on score 0 when everyone
had a nonzero score before. -/
theorem updateFirst_find?_zero (l : List Player) (pid : Nat) (player : Player)
    (f : Player → Player)
    (hfind : l.find? (fun p => p.id = pid) = some player)
    (hz : (f player).remaining_score = 0)
    (hnz : ∀ p ∈ l, p.remaining_score ≠ 0) :
    (updateFirst l pid f).find? (fun p => p.remaining_score = 0) = some (f player) := by
  induction l with
  | nil => simp at hfind
  | cons p rest ih =>
    unfold updateFirst
    by_cases h : p.id = pid
    · have hp : player = p := by
        rw [List.find?_cons_of_pos _ (by simp [h])] at hfind
        exact (Option.some.injEq ..).mp hfind.symm
      subst hp
      rw [if_pos h]
      simp [List.find?_cons, hz]
    · rw [if_neg h]
      rw [List.find?_cons_of_neg _ (by simp [h])] at hfind
      have hpnz : p.remaining_score ≠ 0 := hnz p (List.mem_cons_self ..)
      rw [List.find?_cons_of_neg _ (by simp [hpnz])]
      exact ih hfind (fun q hq => hnz q (List.mem_cons_of_mem _ hq))

/-- Updating the first player with the given id, when the update keeps
that player's id, leaves them the first player with that id. -/
theorem updateFirst_find?_of_found (l : List Player) (pid : Nat) (player : Player)
    (f : Player → Player)
    (hfind : l.find? (fun p => p.id = pid) = some player)
    (hid : (f player).id = player.id) :
    (updateFirst l pid f).find? (fun p => p.id = pid) = some (f player) := by
  induction l with
  | nil => simp at hfind
  | cons p rest ih =>
    unfold updateFirst
    by_cases h : p.id = pid
    · have hp : player = p := by
        rw [List.find?_cons_of_pos _ (by simp [h])] at hfind
        exact (Option.some.injEq ..).mp hfind.symm
      subst hp
      rw [if_pos h]
      have : (f player).id = pid := by rw [hid, h]
      rw [List.find?_cons_of_pos _ (by simp [this])]
    · rw [if_neg h]
      rw [List.find?_cons_of_neg _ (by simp [h])] at hfind
      rw [List.find?_cons_of_neg _ (by simp [h])]
      exact ih hfind

theorem jsOrElse_zero (x : Int) : jsOrElse x 0 = x := by
  unfold jsOrElse
  by_cases h : x = 0 <;> simp [h]

theorem marksFor_setMarksFor (p : Player) (s v : Int) (hs : s ∈ CRICKET_NUMBERS) :
    marksFor (setMarksFor p s v) s = v := by
  simp only [CRICKET_NUMBERS, List.mem_cons, List.not_mem_nil, or_false] at hs
  rcases hs with h | h | h | h | h | h | h <;> subst h <;>
    simp [marksFor, setMarksFor]

theorem setMarksFor_points (p : Player) (s v : Int) :
    (setMarksFor p s v).cricket_points = p.cricket_points := by
  unfold setMarksFor
  by_cases h25 : s = 25
  · simp [h25]
  · by_cases h15 : s = 15
    · simp [h25, h15]
    · by_cases h16 : s = 16
      · simp [h25, h15, h16]
      · by_cases h17 : s = 17
        · simp [h25, h15, h16, h17]
        · by_cases h18 : s = 18
          · simp [h25, h15, h16, h17, h18]
          · by_cases h19 : s = 19
            · simp [h25, h15, h16, h17, h18, h19]
            · by_cases h20 : s = 20
              · simp [h25, h15, h16, h17, h18, h19, h20]
              · simp [h25, h15, h16, h17, h18, h19, h20]

/-! ### C6: reverse is the exact inverse of advance -/

theorem tmod_nonneg_lt (a b : Int) (ha : 0 ≤ a) (hb : 0 < b) :
    Int.tmod a b = a % b := Int.tmod_eq_emod ha (le_of_lt hb)

/-- C6: for every turn-sequencer state with dart-in-turn in {1,2,3}, turn
number at least 1 and a valid current player index, `reverseTurn` applied
immediately after `advanceTurn` restores the exact (player index,
dart-in-turn, turn number) triple, including at the dart=3 wraparound
where the advance moves to the next player and increments the turn. -/
theorem c6_reverse_inverts_advance (g : LiveGame)
    (hd1 : 1 ≤ g.current_dart) (hd3 : g.current_dart ≤ 3)
    (ht : 1 ≤ g.current_turn)
    (hp0 : 0 ≤ g.current_player_index)
    (hpn : g.current_player_index < (g.players.length : Int)) :
    (reverseTurn (advanceTurn g)).current_player_index = g.current_player_index ∧
    (reverseTurn (advanceTurn g)).current_dart = g.current_dart ∧
    (reverseTurn (advanceTurn g)).current_turn = g.current_turn := by
  have hn : (0 : Int) < (g.players.length : Int) := lt_of_le_of_lt hp0 hpn
  unfold advanceTurn
  by_cases hlt : g.current_dart < 3
  · simp only [hlt, if_true]
    unfold reverseTurn
    simp only
    have : (1 : Int) < g.current_dart + 1 := by omega
    simp [this]
  · have hd : g.current_dart = 3 := le_antisymm hd3 (by omega)
    simp only [hlt, if_false]
    unfold reverseTurn
    simp only
    have hnot : ¬ ((1 : Int) < 1) := by omega
    simp only [hnot, if_false]
    have hturn : (1 : Int) < g.current_turn + 1 := by omega
    simp only [hturn, if_true]
    refine ⟨?_, hd.symm, by omega⟩
    set n : Int := (g.players.length : Int) with hn_def
    set p : Int := g.current_player_index with hp_def
    have h1 : Int.tmod (p + 1) n = (p + 1) % n := tmod_nonneg_lt _ _ (by omega) hn
    rw [h1]
    have hq0 : 0 ≤ (p + 1) % n := Int.emod_nonneg _ (by omega)
    have h2 : Int.tmod ((p + 1) % n - 1 + n) n = ((p + 1) % n - 1 + n) % n :=
      tmod_nonneg_lt _ _ (by omega) hn
    rw [h2]
    by_cases hcase : p + 1 < n
    · have hq : (p + 1) % n = p + 1 := Int.emod_eq_of_lt (by omega) hcase
      rw [hq]
      have : p + 1 - 1 + n = p + n * 1 := by ring
      rw [this, Int.add_mul_emod_self_left]
      exact Int.emod_eq_of_lt hp0 hpn
    · have hpn' : p + 1 = n := by omega
      rw [hpn', Int.emod_self]
      have : (0 : Int) - 1 + n = n - 1 := by ring
      rw [this]
      have := Int.emod_eq_of_lt (a := n - 1) (b := n) (by omega) (by omega)
      omega

/-- Witness for C6 at a concrete two-player state on the dart=3 boundary. -/
theorem c6_witness :
    (1 : Int) ≤ (sample501 40 501 3).current_dart ∧
    (reverseTurn (advanceTurn (sample501 40 501 3))).current_player_index =
      (sample501 40 501 3).current_player_index := by
  refine ⟨by decide, ?_⟩
  exact (c6_reverse_inverts_advance (sample501 40 501 3) (by decide) (by decide)
    (by decide) (by decide) (by decide)).1

/-! ### C1: 01 throw rules (bust condition, score deduction, winner) -/

/-- C1: for every 01-variant throw on a playing match (remaining scores
at least 2: a score of 0 finishes the match and a score of 1 is made
unreachable by the bust rule), with raw value segment×multiplier (0 for a
miss): the throw is flagged as a bust exactly when remaining−raw is below
0, equals 1, or equals 0 with multiplier ≠ 2; a non-bust throw sets the
acting participant's remaining score to remaining−raw; and a participant
whose remaining score reaches exactly 0 is reported as the winner by
`check01Complete`. -/
theorem c1_01_throw_rules (g : LiveGame) (pid : Nat) (player : Player)
    (segment : Option Int) (multiplier : Int)
    (hfind : g.players.find? (fun p => p.id = pid) = some player)
    (hplay : ∀ p ∈ g.players, 2 ≤ p.remaining_score) :
    ∃ g' out, process01Throw g pid segment multiplier = some (g', out) ∧
      (out.isBust = true ↔
        (player.remaining_score - calculateRawValue segment multiplier < 0 ∨
         player.remaining_score - calculateRawValue segment multiplier = 1 ∨
         (player.remaining_score - calculateRawValue segment multiplier = 0 ∧
           multiplier ≠ 2))) ∧
      (out.isBust = false →
        ∃ player', g'.players.find? (fun p => p.id = pid) = some player' ∧
          player'.remaining_score =
            player.remaining_score - calculateRawValue segment multiplier) ∧
      (out.isBust = false →
        player.remaining_score - calculateRawValue segment multiplier = 0 →
        check01Complete g' = some { winnerId := player.id
                                    winnerUserId := player.user_id
                                    reason := "checked_out" }) := by
  have hmem : player ∈ g.players := List.mem_of_find?_eq_some hfind
  have hp2 : 2 ≤ player.remaining_score := hplay player hmem
  cases segment with
  | none =>
    simp only [process01Throw, hfind]
    refine ⟨_, _, rfl, ?_, ?_, ?_⟩
    · simp only [calculateRawValue]
      constructor
      · intro h; exact absurd h (by simp)
      · intro h; omega
    · intro _
      exact ⟨player, hfind, by simp [calculateRawValue]⟩
    · intro _ h
      simp only [calculateRawValue] at h
      omega
  | some s =>
    simp only [process01Throw, hfind]
    by_cases hs0 : s = 0
    · subst hs0
      simp only [if_pos rfl]
      refine ⟨_, _, rfl, ?_, ?_, ?_⟩
      · simp only [calculateRawValue, if_pos rfl]
        constructor
        · intro h; exact absurd h (by simp)
        · intro h; omega
      · intro _
        exact ⟨player, hfind, by simp [calculateRawValue]⟩
      · intro _ h
        simp only [calculateRawValue, if_pos rfl] at h
        omega
    · rw [if_neg hs0]
      have hraw : calculateRawValue (some s) multiplier = s * multiplier := by
        simp [calculateRawValue, hs0]
      by_cases hbust : player.remaining_score - s * multiplier < 0 ∨
          player.remaining_score - s * multiplier = 1 ∨
          (player.remaining_score - s * multiplier = 0 ∧ multiplier ≠ 2)
      · rw [if_pos hbust]
        refine ⟨_, _, rfl, ?_, ?_, ?_⟩
        · simpa [hraw] using hbust
        · intro h; exact absurd h (by simp)
        · intro h; exact absurd h (by simp)
      · rw [if_neg hbust]
        refine ⟨_, _, rfl, ?_, ?_, ?_⟩
        · simpa [hraw] using hbust
        · intro _
          have hid : ∀ p : Player,
              ((fun (p : Player) => { p with remaining_score := player.remaining_score - s * multiplier }) p).id = p.id :=
            fun p => rfl
          refine ⟨{ player with remaining_score := player.remaining_score - s * multiplier },
            ?_, by simp [hraw]⟩
          show (updateFirst g.players pid _).find? (fun p => p.id = pid) = _
          rw [updateFirst_find?_id _ _ _ hid, hfind]
          rfl
        · intro _ hzero
          rw [hraw] at hzero
          show check01Complete _ = _
          unfold check01Complete
          rw [updateFirst_find?_zero g.players pid player _ hfind (by simp [hzero])
            (fun p hp => by have := hplay p hp; omega)]

/-- Witness for C1: the spec's 501 scenario — remaining 40, double 20 is
a valid finish and the thrower is reported as the winner. -/
theorem c1_witness :
    (∀ p ∈ (sample501 40 501 1).players, 2 ≤ p.remaining_score) ∧
    ∃ g' out, process01Throw (sample501 40 501 1) 1 (some 20) 2 = some (g', out) ∧
      out.isBust = false ∧
      check01Complete g' = some { winnerId := 1, winnerUserId := 1, reason := "checked_out" } := by
  refine ⟨by decide, ?_⟩
  obtain ⟨g', out, heq, hiff, _, hwin⟩ :=
    c1_01_throw_rules (sample501 40 501 1) 1
      { id := 1, user_id := 1, player_order := 0, remaining_score := 40 }
      (some 20) 2 (by decide) (by decide)
  have hnot : ¬ ((40 : Int) - calculateRawValue (some 20) 2 < 0 ∨
      (40 : Int) - calculateRawValue (some 20) 2 = 1 ∨
      ((40 : Int) - calculateRawValue (some 20) 2 = 0 ∧ (2 : Int) ≠ 2)) := by decide
  have hb : out.isBust = false := by
    cases h : out.isBust
    · rfl
    · exact absurd (hiff.mp h) hnot
  exact ⟨g', out, heq, hb, hwin hb (by decide)⟩

/-! ### C4: cricket marks and points beyond the third mark -/

theorem marksFor_set_points (p : Player) (c s : Int) :
    marksFor { p with cricket_points := c } s = marksFor p s := rfl

theorem setMarksFor_id (p : Player) (s v : Int) : (setMarksFor p s v).id = p.id := by
  unfold setMarksFor
  repeat' split
  all_goals rfl

/-- C4: for every cricket throw on a valid number that is not closed by
every other participant, the acting participant's marks on that number
increase by exactly the multiplier and the points awarded are exactly
those for the marks beyond the third (max(new−3,0) − max(old−3,0)) times
the number; in particular a throw leaving the participant at or below 3
marks awards zero points. -/
theorem c4_cricket_points (g : LiveGame) (pid : Nat) (player : Player)
    (s multiplier : Int)
    (hfind : g.players.find? (fun p => p.id = pid) = some player)
    (hs : s ∈ CRICKET_NUMBERS)
    (hmult : 0 ≤ multiplier)
    (hopen : ((g.players.filter (fun p => p.id ≠ pid)).all
      (fun p => 3 ≤ marksFor p s)) = false) :
    ∃ g' out, processCricketThrow g pid (some s) multiplier = some (g', out) ∧
      out.marksAdded = multiplier ∧
      out.newMarks = some (marksFor player s + multiplier) ∧
      out.pointsScored =
        (max (marksFor player s + multiplier - 3) 0 - max (marksFor player s - 3) 0) * s ∧
      (marksFor player s + multiplier ≤ 3 → out.pointsScored = 0) ∧
      ∃ player', g'.players.find? (fun p => p.id = pid) = some player' ∧
        marksFor player' s = marksFor player s + multiplier ∧
        player'.cricket_points = player.cricket_points + out.pointsScored := by
  have hs0 : ¬ s = 0 := by
    simp only [CRICKET_NUMBERS, List.mem_cons, List.not_mem_nil, or_false] at hs
    omega
  simp only [processCricketThrow, hfind, if_neg hs0, if_neg (not_not_intro hs),
    jsOrElse_zero, hopen]
  set m := marksFor player s with hm
  refine ⟨_, _, rfl, ?_, ?_, ?_, ?_, ?_⟩
  · rfl
  · rfl
  · dsimp only
    by_cases h3 : 3 ≤ m
    · have h1 : max (m + multiplier - 3) 0 = m + multiplier - 3 :=
        max_eq_left (by omega)
      have h2 : max (m - 3) 0 = m - 3 := max_eq_left (by omega)
      rw [if_pos ⟨h3, by simp⟩, h1, h2]
      ring
    · by_cases h4 : 3 < m + multiplier
      · have h1 : max (m + multiplier - 3) 0 = m + multiplier - 3 :=
          max_eq_left (by omega)
        have h2 : max (m - 3) 0 = 0 := max_eq_right (by omega)
        rw [if_neg (by intro h; exact h3 h.1),
          if_pos ⟨by omega, h4, by simp⟩, h1, h2]
        ring
      · have h1 : max (m + multiplier - 3) 0 = 0 := max_eq_right (by omega)
        have h2 : max (m - 3) 0 = 0 := max_eq_right (by omega)
        rw [if_neg (by intro h; exact h3 h.1),
          if_neg (by intro h; exact h4 h.2.1), h1, h2]
        ring
  · intro hle
    dsimp only
    by_cases h3 : 3 ≤ m
    · have hm0 : multiplier = 0 := by omega
      rw [if_pos ⟨h3, by simp⟩, hm0]
      ring
    · rw [if_neg (by intro h; exact h3 h.1),
        if_neg (by intro h; omega)]
  · refine ⟨_, updateFirst_find?_of_found g.players pid player _ hfind
      (by dsimp only; rw [setMarksFor_id]), ?_, ?_⟩
    · dsimp only
      rw [marksFor_set_points, marksFor_setMarksFor player s (m + multiplier) hs]
    · dsimp only
      rw [setMarksFor_points]

/-- The spec's cricket scenario: P1 has two marks on 20, P2 none. -/
def c4Game : LiveGame :=
  { id := 3
    game_type := .cricket
    status := .playing
    starting_score := none
    created_by := 1
    current_player_index := 0
    current_dart := 1
    current_turn := 1
    players := [{ id := 1, user_id := 1, player_order := 0, marks_20 := 2 },
                { id := 2, user_id := 2, player_order := 1 }] }

/-- Witness for C4: P1 (2 marks on 20) throws triple-20 against an open
20 and ends with 5 marks and exactly 40 points. -/
theorem c4_witness :
    (0 : Int) ≤ 3 ∧
    ((c4Game.players.filter (fun p => p.id ≠ 1)).all (fun p => 3 ≤ marksFor p 20)) = false ∧
    ∃ g' out, processCricketThrow c4Game 1 (some 20) 3 = some (g', out) ∧
      out.newMarks = some 5 ∧ out.pointsScored = 40 := by
  refine ⟨by decide, by decide, ?_⟩
  obtain ⟨g', out, heq, _, hnew, hpts, _, _⟩ :=
    c4_cricket_points c4Game 1 { id := 1, user_id := 1, player_order := 0, marks_20 := 2 }
      20 3 (by decide) (by decide) (by decide) (by decide)
  refine ⟨g', out, heq, ?_, ?_⟩
  · rw [hnew]; decide
  · rw [hpts]; decide

/-! ### C5: Around the World hit detection, progression and completion -/

/-- C5: an Around the World throw is a hit exactly when the segment
equals the represented number of the current target (25 when the target
is 21), independent of the multiplier (which is universally quantified
and absent from the condition); on a hit the target increments by 1 and
otherwise the state is unchanged; and `checkAroundTheWorldComplete`
reports a winner exactly when some participant's target exceeds 21, the
reported winner being such a participant. -/
theorem c5_atw_rules (g : LiveGame) (pid : Nat) (player : Player)
    (segment : Option Int) (multiplier : Int)
    (hfind : g.players.find? (fun p => p.id = pid) = some player) :
    ∃ g' out, processAroundTheWorldThrow g pid segment multiplier = some (g', out) ∧
      (out.hit = true ↔
        segment = some (if player.current_target = 21 then 25 else player.current_target)) ∧
      (out.hit = true →
        ∃ player', g'.players.find? (fun p => p.id = pid) = some player' ∧
          player'.current_target = player.current_target + 1) ∧
      (out.hit = false → g' = g) ∧
      ((checkAroundTheWorldComplete g).isSome ↔ ∃ p ∈ g.players, 21 < p.current_target) ∧
      (∀ w, checkAroundTheWorldComplete g = some w →
        ∃ p ∈ g.players, p.id = w.winnerId ∧ 21 < p.current_target) := by
  have hcomplete : ((checkAroundTheWorldComplete g).isSome ↔
      ∃ p ∈ g.players, 21 < p.current_target) ∧
      (∀ w, checkAroundTheWorldComplete g = some w →
        ∃ p ∈ g.players, p.id = w.winnerId ∧ 21 < p.current_target) := by
    unfold checkAroundTheWorldComplete
    cases hf : g.players.find? (fun p => 21 < p.current_target) with
    | none =>
      rw [List.find?_eq_none] at hf
      constructor
      · simp only [Option.isSome_none, Bool.false_eq_true, false_iff]
        rintro ⟨p, hp, hlt⟩
        exact hf p hp (by simpa using hlt)
      · intro w hw
        simp at hw
    | some p =>
      have hmem := List.mem_of_find?_eq_some hf
      have hlt : 21 < p.current_target := by simpa using List.find?_some hf
      constructor
      · simp only [Option.isSome_some, true_iff]
        exact ⟨p, hmem, hlt⟩
      · intro w hw
        refine ⟨p, hmem, ?_, hlt⟩
        simp only [Option.some.injEq] at hw
        rw [← hw]
  simp only [processAroundTheWorldThrow, hfind]
  by_cases hhit : segment =
      some (if player.current_target = 21 then 25 else player.current_target)
  · rw [if_pos hhit]
    refine ⟨_, _, rfl, by simpa using hhit, ?_, by simp, hcomplete.1, hcomplete.2⟩
    intro _
    exact ⟨_, updateFirst_find?_of_found g.players pid player _ hfind rfl, rfl⟩
  · rw [if_neg hhit]
    exact ⟨_, _, rfl, by simpa using hhit, by simp, fun _ => rfl,
      hcomplete.1, hcomplete.2⟩

/-- The spec's Around the World scenario: P1 needs the bull (target 21). -/
def atwGame : LiveGame :=
  { id := 4
    game_type := .aroundTheWorld
    status := .playing
    starting_score := none
    created_by := 1
    current_player_index := 0
    current_dart := 1
    current_turn := 1
    players := [{ id := 1, user_id := 1, player_order := 0, current_target := 21 },
                { id := 2, user_id := 2, player_order := 1, current_target := 5 }] }

/-- Witness for C5: P1 at target 21 hits segment 25: the throw is a hit,
the target becomes 22 and the completion check reports a winner. -/
theorem c5_witness :
    (atwGame.players.find? (fun p => p.id = 1) =
      some { id := 1, user_id := 1, player_order := 0, current_target := 21 }) ∧
    ∃ g' out, processAroundTheWorldThrow atwGame 1 (some 25) 1 = some (g', out) ∧
      out.hit = true ∧
      ∃ player', g'.players.find? (fun p => p.id = 1) = some player' ∧
        player'.current_target = 22 ∧ (checkAroundTheWorldComplete g').isSome := by
  refine ⟨by decide, ?_⟩
  obtain ⟨g', out, heq, hiff, hprog, _, _, _⟩ :=
    c5_atw_rules atwGame 1 { id := 1, user_id := 1, player_order := 0, current_target := 21 }
      (some 25) 1 (by decide)
  have hhit : out.hit = true := hiff.mpr (by decide)
  obtain ⟨player', hp', ht⟩ := hprog hhit
  obtain ⟨_, _, _, _, _, _, hiso, _⟩ := c5_atw_rules g' 1 player' none 1 hp'
  refine ⟨g', out, heq, hhit, player', hp', by rw [ht]; decide, ?_⟩
  exact hiso.mpr ⟨player', List.mem_of_find?_eq_some hp', by rw [ht]; decide⟩

/-! ### Lemmas about the store and the turn functions used by the
handler-level claims -/

theorem reverseTurn_id (g : LiveGame) : (reverseTurn g).id = g.id := by
  unfold reverseTurn
  repeat' split
  all_goals rfl

theorem reverseTurn_game_type (g : LiveGame) : (reverseTurn g).game_type = g.game_type := by
  unfold reverseTurn
  repeat' split
  all_goals rfl

theorem reverseTurn_players (g : LiveGame) : (reverseTurn g).players = g.players := by
  unfold reverseTurn
  repeat' split
  all_goals rfl

theorem reverseTurn_throws (g : LiveGame) : (reverseTurn g).throws = g.throws := by
  unfold reverseTurn
  repeat' split
  all_goals rfl

theorem advanceTurn_id (g : LiveGame) : (advanceTurn g).id = g.id := by
  unfold advanceTurn
  split
  all_goals rfl

theorem advanceTurn_status (g : LiveGame) : (advanceTurn g).status = g.status := by
  unfold advanceTurn
  split
  all_goals rfl

theorem advanceTurn_players (g : LiveGame) : (advanceTurn g).players = g.players := by
  unfold advanceTurn
  split
  all_goals rfl

theorem advanceTurn_throws (g : LiveGame) : (advanceTurn g).throws = g.throws := by
  unfold advanceTurn
  split
  all_goals rfl

theorem findById_some_id (store : List LiveGame) (gid : Nat) (g : LiveGame)
    (hfind : findById store gid = some g) : g.id = gid := by
  simpa using List.find?_some hfind

theorem findById_saveGame (store : List LiveGame) (gid : Nat) (g g' : LiveGame)
    (hfind : findById store gid = some g) (hid : g'.id = g.id) :
    findById (saveGame store g') gid = some g' := by
  have hgid : g.id = gid := findById_some_id store gid g hfind
  unfold findById saveGame
  unfold findById at hfind
  induction store with
  | nil => simp at hfind
  | cons x rest ih =>
    by_cases hx : x.id = gid
    · rw [List.find?_cons_of_pos _ (by simp [hx])] at hfind
      have hxg : g = x := (Option.some.injEq ..).mp hfind.symm
      subst hxg
      simp only [List.map_cons, if_pos hid.symm]
      rw [List.find?_cons_of_pos _ (by simp [hid, hgid])]
    · rw [List.find?_cons_of_neg _ (by simp [hx])] at hfind
      have hxg' : ¬ x.id = g'.id := by rw [hid]; omega
      simp only [List.map_cons, if_neg hxg']
      rw [List.find?_cons_of_neg _ (by simp [hx])]
      exact ih hfind

/-! ### C8: precondition failures report an error to the sender only and
change nothing -/

/-- C8: `throw_dart` against a missing match or a match that is not
playing, and `undo_throw` when no throws exist, each produce exactly one
`errorTo` action for the originating connection (no broadcast, no
connection close, no room teardown) and leave the store — hence every
field of every match — unchanged. -/
theorem c8_error_paths :
    (∀ (ws : WsClient) (segment multiplier : Option Int) (store : List LiveGame) (gid : Nat),
      findById store gid = none →
      handleThrowDart ws (some gid) segment multiplier store =
        ⟨store, [Effect.errorTo "Game not found"]⟩) ∧
    (∀ (ws : WsClient) (segment multiplier : Option Int) (store : List LiveGame)
        (gid : Nat) (g : LiveGame),
      findById store gid = some g → g.status ≠ GameStatus.playing →
      handleThrowDart ws (some gid) segment multiplier store =
        ⟨store, [Effect.errorTo "Game is not in progress"]⟩) ∧
    (∀ (ws : WsClient) (store : List LiveGame) (gid : Nat) (g : LiveGame),
      findById store gid = some g → g.status = GameStatus.playing → g.throws = [] →
      handleUndoThrow ws (some gid) store =
        ⟨store, [Effect.errorTo "No throws to undo"]⟩) := by
  refine ⟨?_, ?_, ?_⟩
  · intro ws segment multiplier store gid h
    simp only [handleThrowDart, h]
  · intro ws segment multiplier store gid g hfind hne
    simp only [handleThrowDart, hfind, if_pos hne]
  · intro ws store gid g hfind hstatus hthrows
    simp only [handleUndoThrow, hfind, if_neg (not_not_intro hstatus), hthrows,
      List.getLast?_nil]

/-- A waiting (not yet started) 501 game. -/
def waitingGame : LiveGame :=
  { id := 5
    game_type := .x501
    status := .waiting
    starting_score := some 501
    created_by := 1
    current_player_index := 0
    current_dart := 1
    current_turn := 1
    players := [{ id := 1, user_id := 1, player_order := 0, remaining_score := 501 }] }

/-- Witness for C8: the three error paths at concrete inputs. -/
theorem c8_witness :
    handleThrowDart ⟨1, "N"⟩ (some 7) none none [] =
      ⟨[], [Effect.errorTo "Game not found"]⟩ ∧
    handleThrowDart ⟨1, "N"⟩ (some 5) none none [waitingGame] =
      ⟨[waitingGame], [Effect.errorTo "Game is not in progress"]⟩ ∧
    handleUndoThrow ⟨1, "N"⟩ (some 1) [sample501 40 501 1] =
      ⟨[sample501 40 501 1], [Effect.errorTo "No throws to undo"]⟩ :=
  ⟨c8_error_paths.1 ⟨1, "N"⟩ none none [] 7 rfl,
   c8_error_paths.2.1 ⟨1, "N"⟩ none none [waitingGame] 5 waitingGame rfl (by decide),
   c8_error_paths.2.2 ⟨1, "N"⟩ [sample501 40 501 1] 1 (sample501 40 501 1) rfl rfl rfl⟩

/-! ### C10: cricket undo clamps the mark counter and point total at zero -/

/-- C10: after undoing the last throw of a cricket match, the undone
segment's mark counter and the acting participant's point total are
clamped at zero, for every prior state — including states where the
stored mark count is smaller than the undone throw's multiplier. -/
theorem c10_cricket_undo_clamped (ws : WsClient) (store : List LiveGame) (gid : Nat)
    (g : LiveGame) (lt : ThrowRec) (s : Int) (player : Player)
    (hfind : findById store gid = some g)
    (hcricket : g.game_type = GameType.cricket)
    (hstatus : g.status = GameStatus.playing)
    (hlast : g.throws.getLast? = some lt)
    (hseg : lt.segment = some s)
    (hs : s ∈ CRICKET_NUMBERS)
    (hplayer : g.players.find? (fun p => p.id = lt.player_id) = some player) :
    ∃ g' player',
      findById (handleUndoThrow ws (some gid) store).store gid = some g' ∧
      g'.players.find? (fun p => p.id = lt.player_id) = some player' ∧
      0 ≤ marksFor player' s ∧ 0 ≤ player'.cricket_points := by
  have hs0 : ¬ s = 0 := by
    simp only [CRICKET_NUMBERS, List.mem_cons, List.not_mem_nil, or_false] at hs
    omega
  have hpid : player.id = lt.player_id := by simpa using List.find?_some hplayer
  simp only [handleUndoThrow, hfind, if_neg (not_not_intro hstatus), hlast, hplayer,
    reverseTurn_game_type, hcricket, hseg, if_neg hs0, reverseTurn_players, hpid]
  exact ⟨_, _,
    findById_saveGame store gid g _ hfind (by exact reverseTurn_id g),
    updateFirst_find?_of_found g.players lt.player_id player _ hplayer
      (by rw [setMarksFor_id]),
    by rw [marksFor_set_points, marksFor_setMarksFor _ _ _ hs]
       exact le_max_left 0 _,
    by exact le_max_left 0 _⟩

/-- A cricket game with a single recorded triple-20 thrown by a player
holding only one mark on 20 (fewer marks than the throw's multiplier). -/
def c10Game : LiveGame :=
  { id := 6
    game_type := .cricket
    status := .playing
    starting_score := none
    created_by := 1
    current_player_index := 0
    current_dart := 2
    current_turn := 1
    players := [{ id := 1, user_id := 1, player_order := 0, marks_20 := 1 },
                { id := 2, user_id := 2, player_order := 1 }]
    throws := [mkThrow 1 1 1 1 1 (some 20) 3 60 false] }

/-- Witness for C10: undoing the triple-20 against a single stored mark
leaves the counter and the point total clamped at zero. -/
theorem c10_witness :
    c10Game.throws.getLast? = some (mkThrow 1 1 1 1 1 (some 20) 3 60 false) ∧
    ∃ g' player',
      findById (handleUndoThrow ⟨1, "N"⟩ (some 6) [c10Game]).store 6 = some g' ∧
      g'.players.find? (fun p => p.id = 1) = some player' ∧
      0 ≤ marksFor player' 20 ∧ 0 ≤ player'.cricket_points := by
  refine ⟨by decide, ?_⟩
  exact c10_cricket_undo_clamped ⟨1, "N"⟩ [c10Game] 6 c10Game
    (mkThrow 1 1 1 1 1 (some 20) 3 60 false) 20
    { id := 1, user_id := 1, player_order := 0, marks_20 := 1 }
    (by decide) rfl rfl (by decide) rfl (by decide) (by decide)

/-! ### C2: the bust replay miscounts committed darts of earlier busted
turns -/

/-- C2 (code bug): in the reachable state `c2Game` — player 1 busted
turn 3 after a committed triple-20, so turn 5 starts at 121 — the bust on
dart 2 of turn 5 is recorded as a bust but the handler replays every
non-bust throw of earlier turns against the starting score, counting the
committed dart of the reverted turn 3, and restores 61 instead of the
turn-start score 121.  The bust therefore changes the remaining score
away from its value at the start of the turn. -/
theorem c2_bust_replay_bug :
    turnStartScoreSpec c2Game 1 = 121 ∧
    ((findById (handleThrowDart ⟨1, "A"⟩ (some 1) (some 20) (some 3) [c2Game]).store 1).bind
      (fun g => g.throws.getLast?.map ThrowRec.is_bust)) = some true ∧
    ((findById (handleThrowDart ⟨1, "A"⟩ (some 1) (some 20) (some 3) [c2Game]).store 1).bind
      (fun g => (g.players.find? (fun p => p.id = 1)).map Player.remaining_score)) =
      some 61 ∧
    (61 : Int) ≠ 121 := by
  refine ⟨by decide, by decide, by decide, by decide⟩

/-! ### Preservation lemmas: the scoring engine touches only player
fields, never the turn triple, the throws or the metadata -/

/-- Fields of the game record other than `players` that every scoring
function leaves unchanged, plus preservation of the player count. -/
def SameGameFrame (g g1 : LiveGame) : Prop :=
  g1.id = g.id ∧ g1.game_type = g.game_type ∧ g1.status = g.status ∧
  g1.starting_score = g.starting_score ∧
  g1.current_player_index = g.current_player_index ∧
  g1.current_dart = g.current_dart ∧ g1.current_turn = g.current_turn ∧
  g1.throws = g.throws ∧ g1.players.length = g.players.length

theorem sameGameFrame_refl (g : LiveGame) : SameGameFrame g g :=
  ⟨rfl, rfl, rfl, rfl, rfl, rfl, rfl, rfl, rfl⟩

theorem sameGameFrame_updateFirst (g : LiveGame) (pid : Nat) (f : Player → Player) :
    SameGameFrame g { g with players := updateFirst g.players pid f } :=
  ⟨rfl, rfl, rfl, rfl, rfl, rfl, rfl, rfl, updateFirst_length g.players pid f⟩

theorem processCricketThrow_frame (g : LiveGame) (pid : Nat) (s : Option Int)
    (m : Int) (g1 : LiveGame) (o : CricketOutcome)
    (h : processCricketThrow g pid s m = some (g1, o)) : SameGameFrame g g1 := by
  unfold processCricketThrow at h
  cases hf : g.players.find? (fun p => p.id = pid) with
  | none => simp [hf] at h
  | some player =>
    simp only [hf] at h
    cases s with
    | none =>
      dsimp only at h
      simp only [Option.some.injEq, Prod.mk.injEq] at h
      rw [← h.1]
      exact sameGameFrame_refl g
    | some sv =>
      dsimp only at h
      by_cases h0 : sv = 0
      · rw [if_pos h0] at h
        simp only [Option.some.injEq, Prod.mk.injEq] at h
        rw [← h.1]
        exact sameGameFrame_refl g
      · rw [if_neg h0] at h
        by_cases hmem : sv ∉ CRICKET_NUMBERS
        · rw [if_pos hmem] at h
          simp only [Option.some.injEq, Prod.mk.injEq] at h
          rw [← h.1]
          exact sameGameFrame_refl g
        · rw [if_neg hmem] at h
          simp only [Option.some.injEq, Prod.mk.injEq] at h
          rw [← h.1]
          exact sameGameFrame_updateFirst g pid _

theorem process01Throw_frame (g : LiveGame) (pid : Nat) (s : Option Int)
    (m : Int) (g1 : LiveGame) (o : O1Outcome)
    (h : process01Throw g pid s m = some (g1, o)) : SameGameFrame g g1 := by
  unfold process01Throw at h
  cases hf : g.players.find? (fun p => p.id = pid) with
  | none => simp [hf] at h
  | some player =>
    simp only [hf] at h
    cases s with
    | none =>
      dsimp only at h
      simp only [Option.some.injEq, Prod.mk.injEq] at h
      rw [← h.1]
      exact sameGameFrame_refl g
    | some sv =>
      dsimp only at h
      by_cases h0 : sv = 0
      · rw [if_pos h0] at h
        simp only [Option.some.injEq, Prod.mk.injEq] at h
        rw [← h.1]
        exact sameGameFrame_refl g
      · rw [if_neg h0] at h
        by_cases hb : player.remaining_score - sv * m < 0 ∨
            player.remaining_score - sv * m = 1 ∨
            (player.remaining_score - sv * m = 0 ∧ m ≠ 2)
        · rw [if_pos hb] at h
          simp only [Option.some.injEq, Prod.mk.injEq] at h
          rw [← h.1]
          exact sameGameFrame_refl g
        · rw [if_neg hb] at h
          simp only [Option.some.injEq, Prod.mk.injEq] at h
          rw [← h.1]
          exact sameGameFrame_updateFirst g pid _

theorem processAroundTheWorldThrow_frame (g : LiveGame) (pid : Nat) (s : Option Int)
    (m : Int) (g1 : LiveGame) (o : ATWOutcome)
    (h : processAroundTheWorldThrow g pid s m = some (g1, o)) : SameGameFrame g g1 := by
  unfold processAroundTheWorldThrow at h
  cases hf : g.players.find? (fun p => p.id = pid) with
  | none => simp [hf] at h
  | some player =>
    simp only [hf] at h
    by_cases hhit : s = some (if player.current_target = 21 then 25 else player.current_target)
    · rw [if_pos hhit] at h
      simp only [Option.some.injEq, Prod.mk.injEq] at h
      rw [← h.1]
      exact sameGameFrame_updateFirst g pid _
    · rw [if_neg hhit] at h
      simp only [Option.some.injEq, Prod.mk.injEq] at h
      rw [← h.1]
      exact sameGameFrame_refl g

theorem processThrow_frame (g : LiveGame) (pid : Nat) (s : Option Int)
    (m : Int) (g1 : LiveGame) (o : ThrowOutcome)
    (h : processThrow g pid s m = some (g1, o)) : SameGameFrame g g1 := by
  unfold processThrow at h
  cases hgt : g.game_type <;> simp only [hgt, Option.map_eq_some'] at h
  case cricket =>
    obtain ⟨⟨g2, o2⟩, h2, h3⟩ := h
    cases h3
    exact processCricketThrow_frame g pid s m g2 o2 h2
  case x301 =>
    obtain ⟨⟨g2, o2⟩, h2, h3⟩ := h
    cases h3
    exact process01Throw_frame g pid s m g2 o2 h2
  case x501 =>
    obtain ⟨⟨g2, o2⟩, h2, h3⟩ := h
    cases h3
    exact process01Throw_frame g pid s m g2 o2 h2
  case aroundTheWorld =>
    obtain ⟨⟨g2, o2⟩, h2, h3⟩ := h
    cases h3
    exact processAroundTheWorldThrow_frame g pid s m g2 o2 h2

theorem handleBust_frame (g : LiveGame) (pid : Nat) (v : Int) :
    SameGameFrame g (handleBust g pid v) :=
  sameGameFrame_updateFirst g pid _

theorem sameGameFrame_trans (a b c : LiveGame)
    (h1 : SameGameFrame a b) (h2 : SameGameFrame b c) : SameGameFrame a c := by
  obtain ⟨x1, x2, x3, x4, x5, x6, x7, x8, x9⟩ := h1
  obtain ⟨y1, y2, y3, y4, y5, y6, y7, y8, y9⟩ := h2
  exact ⟨y1.trans x1, y2.trans x2, y3.trans x3, y4.trans x4, y5.trans x5,
    y6.trans x6, y7.trans x7, y8.trans x8, y9.trans x9⟩

/-- When the acting participant exists, `processThrow` cannot throw. -/
theorem processThrow_isSome (g : LiveGame) (pid : Nat) (s : Option Int) (m : Int)
    (h : (g.players.find? (fun p => p.id = pid)).isSome) :
    (processThrow g pid s m).isSome := by
  obtain ⟨player, hf⟩ := Option.isSome_iff_exists.mp h
  unfold processThrow processCricketThrow process01Throw processAroundTheWorldThrow
  cases g.game_type <;> rw [hf] <;>
    cases s with
    | none => simp
    | some sv =>
      dsimp only
      repeat' split
      all_goals simp

theorem applyBustRecovery_frame (b : Bool) (g1 : LiveGame) (cp : Player)
    (tss0 : Option Int) : SameGameFrame g1 (applyBustRecovery b g1 cp tss0) := by
  unfold applyBustRecovery
  by_cases hb : b = true
  · rw [if_pos hb]
    cases computeTurnStart g1 cp tss0 with
    | none => exact sameGameFrame_refl g1
    | some s => exact handleBust_frame g1 cp.id s
  · rw [if_neg hb]
    exact sameGameFrame_refl g1

/-- The store written by the completion block: finish without advancing
on a winner, otherwise advance — independent of the broadcast inputs. -/
theorem finishOrAdvance_store (gid : Nat) (ws : WsClient) (cp : Player)
    (seg : Option Int) (mult rawValue : Int) (isBust : Bool) (tid : Nat)
    (store : List LiveGame) (g3 : LiveGame) :
    (finishOrAdvance gid ws cp seg mult rawValue isBust tid store g3).store =
      match checkGameComplete g3 with
      | some w => saveGame store { g3 with
          status := GameStatus.finished
          winner_player_id := some w.winnerId }
      | none => saveGame store (advanceTurn g3) := by
  unfold finishOrAdvance
  cases checkGameComplete g3 <;> rfl

theorem advanceTurn_triple_congr (a b : LiveGame)
    (h5 : b.current_player_index = a.current_player_index)
    (h6 : b.current_dart = a.current_dart) (h7 : b.current_turn = a.current_turn)
    (h9 : b.players.length = a.players.length) :
    (advanceTurn b).current_player_index = (advanceTurn a).current_player_index ∧
    (advanceTurn b).current_dart = (advanceTurn a).current_dart ∧
    (advanceTurn b).current_turn = (advanceTurn a).current_turn := by
  unfold advanceTurn
  rw [h5, h6, h7, h9]
  by_cases hc : a.current_dart < 3
  · rw [if_pos hc, if_pos hc]
    exact ⟨rfl, rfl, rfl⟩
  · rw [if_neg hc, if_neg hc]
    exact ⟨rfl, rfl, rfl⟩

theorem jsIndex_mem (l : List Player) (i : Int) (p : Player)
    (h : jsIndex l i = some p) : p ∈ l := by
  unfold jsIndex at h
  by_cases h0 : 0 ≤ i
  · rw [if_pos h0] at h
    exact List.get?_mem h
  · rw [if_neg h0] at h
    simp at h

/-! ### C7: advance is applied exactly once per recorded throw, except a
match-completing throw where the handler returns before advancing -/

/-- C7 (amended): for every throw recorded by `handleThrowDart` on a
playing match with a valid current player — bust throws included — the
handler appends exactly one throw, and the (player index, dart-in-turn,
turn number) triple afterwards equals the advance of the triple that held
before the throw, except for a match-completing throw, where the handler
returns before `advanceTurn` runs and the triple is left unchanged while
the match transitions to finished. -/
theorem c7_advance_once_unless_complete (ws : WsClient) (gid : Nat)
    (segment multiplier : Option Int) (store : List LiveGame) (g : LiveGame) (cp : Player)
    (hfind : findById store gid = some g)
    (hstatus : g.status = GameStatus.playing)
    (hcp : jsIndex g.players g.current_player_index = some cp) :
    ∃ g', findById (handleThrowDart ws (some gid) segment multiplier store).store gid = some g' ∧
      g'.throws.length = g.throws.length + 1 ∧
      ((g'.status = GameStatus.finished ∧
        g'.current_player_index = g.current_player_index ∧
        g'.current_dart = g.current_dart ∧
        g'.current_turn = g.current_turn) ∨
       (g'.status = GameStatus.playing ∧
        g'.current_player_index = (advanceTurn g).current_player_index ∧
        g'.current_dart = (advanceTurn g).current_dart ∧
        g'.current_turn = (advanceTurn g).current_turn)) := by
  have hfirst : (g.players.find? (fun p => p.id = cp.id)).isSome := by
    rw [List.find?_isSome]
    exact ⟨cp, jsIndex_mem _ _ _ hcp, by simp⟩
  obtain ⟨⟨g1, outcome⟩, hproc⟩ := Option.isSome_iff_exists.mp
    (processThrow_isSome g cp.id (jsSegOrNull segment) (jsMultOr1 multiplier) hfirst)
  have hframe1 := processThrow_frame _ _ _ _ _ _ hproc
  simp only [handleThrowDart, hfind, if_neg (not_not_intro hstatus), hcp, hproc]
  obtain ⟨g2, hg2, hframe2⟩ :
      ∃ g2, applyBustRecovery (outcomeIsBust outcome) g1 cp
        (if (g.game_type = GameType.x301 ∨ g.game_type = GameType.x501)
            ∧ g.current_dart = 1 then some cp.remaining_score else none) = g2 ∧
        SameGameFrame g1 g2 :=
    ⟨_, rfl, applyBustRecovery_frame _ _ _ _⟩
  rw [hg2, finishOrAdvance_store]
  have hframe : SameGameFrame g g2 := sameGameFrame_trans g g1 g2 hframe1 hframe2
  obtain ⟨f1, f2, f3, f4, f5, f6, f7, f8, f9⟩ := hframe
  cases hwin : checkGameComplete { g2 with throws := g2.throws ++
      [mkRecordedThrow ws g2 cp (jsSegOrNull segment) (jsMultOr1 multiplier)
        (calculateRawValue (jsSegOrNull segment) (jsMultOr1 multiplier))
        (outcomeIsBust outcome)] } with
  | some w =>
    refine ⟨_, findById_saveGame store gid g _ hfind (by simpa using f1), ?_, ?_⟩
    · show (g2.throws ++ [_]).length = g.throws.length + 1
      rw [List.length_append, f8]
      rfl
    · exact Or.inl ⟨rfl, f5, f6, f7⟩
  | none =>
    refine ⟨_, findById_saveGame store gid g _ hfind ?_, ?_, ?_⟩
    · rw [advanceTurn_id]
      simpa using f1
    · rw [advanceTurn_throws]
      show (g2.throws ++ [_]).length = g.throws.length + 1
      rw [List.length_append, f8]
      rfl
    · refine Or.inr ⟨?_, ?_⟩
      · rw [advanceTurn_status]
        show g2.status = GameStatus.playing
        rw [f3, hstatus]
      · exact advanceTurn_triple_congr g _ f5 f6 f7 (by simpa using f9)

/-- Counterexample to C7 as stated: on the game-winning double-20 from
40, the throw is recorded and the match finishes, but the turn triple is
left at (0, 1, 1) while the advance of the prior triple has dart 2 — the
handler returns before `advanceTurn` on a match-completing throw. -/
theorem c7_counterexample :
    ((findById (handleThrowDart ⟨1, "A"⟩ (some 1) (some 20) (some 2)
        [sample501 40 501 1]).store 1).map
      (fun g => (g.throws.length, g.status, g.current_player_index,
        g.current_dart, g.current_turn))) =
      some (1, GameStatus.finished, 0, 1, 1) ∧
    (advanceTurn (sample501 40 501 1)).current_dart = 2 ∧ (1 : Int) ≠ 2 := by
  refine ⟨by decide, by decide, by decide⟩

/-- Witness for the amended C7 at a concrete committed throw (a single 5
from 40, not match-completing). -/
theorem c7_witness :
    (sample501 40 501 1).status = GameStatus.playing ∧
    ∃ g', findById (handleThrowDart ⟨1, "A"⟩ (some 1) (some 5) (some 1)
        [sample501 40 501 1]).store 1 = some g' ∧
      g'.throws.length = (sample501 40 501 1).throws.length + 1 ∧
      ((g'.status = GameStatus.finished ∧
        g'.current_player_index = (sample501 40 501 1).current_player_index ∧
        g'.current_dart = (sample501 40 501 1).current_dart ∧
        g'.current_turn = (sample501 40 501 1).current_turn) ∨
       (g'.status = GameStatus.playing ∧
        g'.current_player_index = (advanceTurn (sample501 40 501 1)).current_player_index ∧
        g'.current_dart = (advanceTurn (sample501 40 501 1)).current_dart ∧
        g'.current_turn = (advanceTurn (sample501 40 501 1)).current_turn)) :=
  ⟨rfl, c7_advance_once_unless_complete ⟨1, "A"⟩ 1 (some 5) (some 1)
    [sample501 40 501 1] (sample501 40 501 1)
    { id := 1, user_id := 1, player_order := 0, remaining_score := 40 }
    rfl rfl (by decide)⟩

theorem checkGameComplete_01_none (g : LiveGame) (h : g.game_type = GameType.x501)
    (hall : ∀ p ∈ g.players, p.remaining_score ≠ 0) : checkGameComplete g = none := by
  unfold checkGameComplete
  simp only [h]
  unfold check01Complete
  cases hf : g.players.find? (fun p => p.remaining_score = 0) with
  | none => rfl
  | some p =>
    have h0 : p.remaining_score = 0 := by simpa using List.find?_some hf
    exact absurd h0 (hall p (List.mem_of_find?_eq_some hf))

theorem advanceTurn_dart_lt (g : LiveGame) (h : g.current_dart < 3) :
    (advanceTurn g).current_dart = g.current_dart + 1 ∧
    (advanceTurn g).current_player_index = g.current_player_index ∧
    (advanceTurn g).current_turn = g.current_turn := by
  unfold advanceTurn
  rw [if_pos h]
  exact ⟨rfl, rfl, rfl⟩

/-! ### C3: a bust from 32 leaves 32 on the board; the turn state
advances, but to the next player only after the third dart -/

/-- C3 (amended): in a playing 501 match whose acting participant (the
player at the current index, also first with their id) holds remaining
score 32 at the start of their turn (dart 1, no throws recorded for the
turn), a segment-20 multiplier-2 throw is recorded as a bust, the
remaining score stays 32, and the turn state advances by `advanceTurn`
regardless of the bust — here from dart 1 to dart 2 with the player index
and turn number unchanged; the player index changes only when the bust is
thrown on dart 3, not "regardless". -/
theorem c3_bust_at_32 (ws : WsClient) (store : List LiveGame) (gid : Nat)
    (g : LiveGame) (cp : Player)
    (hfind : findById store gid = some g)
    (h501 : g.game_type = GameType.x501)
    (hstatus : g.status = GameStatus.playing)
    (hcp : jsIndex g.players g.current_player_index = some cp)
    (hfirst : g.players.find? (fun p => p.id = cp.id) = some cp)
    (hscore : cp.remaining_score = 32)
    (hdart : g.current_dart = 1)
    (hturn : g.throws.filter
      (fun t => t.player_id = cp.id ∧ t.turn_number = g.current_turn) = [])
    (hnz : ∀ p ∈ g.players, p.remaining_score ≠ 0) :
    ∃ g' cp',
      findById (handleThrowDart ws (some gid) (some 20) (some 2) store).store gid = some g' ∧
      g'.throws.getLast?.map ThrowRec.is_bust = some true ∧
      g'.players.find? (fun p => p.id = cp.id) = some cp' ∧
      cp'.remaining_score = 32 ∧
      g'.current_player_index = (advanceTurn g).current_player_index ∧
      g'.current_dart = (advanceTurn g).current_dart ∧
      g'.current_turn = (advanceTurn g).current_turn ∧
      (advanceTurn g).current_dart = 2 ∧
      (advanceTurn g).current_player_index = g.current_player_index ∧
      (advanceTurn g).current_turn = g.current_turn := by
  have hsegr : jsSegOrNull (some 20) = some 20 := by decide
  have hmultr : jsMultOr1 (some 2) = 2 := by decide
  have hraw : calculateRawValue (some 20) 2 = 40 := by decide
  have hadv := advanceTurn_dart_lt g (by omega)
  have hproc : processThrow g cp.id (some 20) 2 = some (g, ThrowOutcome.o1
      { playerId := cp.id, segment := some 20, multiplier := 2, rawValue := 20 * 2,
        isBust := true, newScore := cp.remaining_score }) := by
    unfold processThrow
    simp only [h501]
    unfold process01Throw
    simp only [hfirst]
    rw [if_neg (by norm_num : ¬ (20 : Int) = 0)]
    rw [if_pos (Or.inl (by omega : cp.remaining_score - 20 * 2 < 0))]
    rfl
  have happly : applyBustRecovery true g cp (some cp.remaining_score) =
      handleBust g cp.id cp.remaining_score := by
    unfold applyBustRecovery computeTurnStart
    rw [hturn]
    simp
  simp only [handleThrowDart, hfind, if_neg (not_not_intro hstatus), hcp,
    hsegr, hmultr, hproc, outcomeIsBust, hraw]
  rw [if_pos (⟨Or.inr h501, hdart⟩ :
    (g.game_type = GameType.x301 ∨ g.game_type = GameType.x501) ∧ g.current_dart = 1)]
  rw [happly, finishOrAdvance_store]
  split
  case h_1 w heq =>
    rw [checkGameComplete_01_none] at heq
    · exact Option.noConfusion heq
    · exact h501
    · intro p hp
      rcases updateFirst_mem g.players cp.id _ p hp with hmem | ⟨y, hy, hxy⟩
      · exact hnz p hmem
      · rw [hxy]
        show cp.remaining_score ≠ 0
        omega
  case h_2 heq =>
    exact ⟨_, { cp with remaining_score := cp.remaining_score },
      findById_saveGame store gid g _ hfind (by rw [advanceTurn_id]; rfl),
      by rw [advanceTurn_throws]
         dsimp only
         rw [List.getLast?_concat]
         rfl,
      by rw [advanceTurn_players]
         exact updateFirst_find?_of_found g.players cp.id cp _ hfirst rfl,
      by exact hscore,
      by refine (advanceTurn_triple_congr g _ ?_ ?_ ?_ ?_).1
         · rfl
         · rfl
         · rfl
         · exact updateFirst_length g.players cp.id _,
      by refine (advanceTurn_triple_congr g _ ?_ ?_ ?_ ?_).2.1
         · rfl
         · rfl
         · rfl
         · exact updateFirst_length g.players cp.id _,
      by refine (advanceTurn_triple_congr g _ ?_ ?_ ?_ ?_).2.2
         · rfl
         · rfl
         · rfl
         · exact updateFirst_length g.players cp.id _,
      by rw [hadv.1, hdart]; norm_num,
      hadv.2.1, hadv.2.2⟩

/-- Counterexample to C3 as stated: the bust from 32 on dart 1 of a
two-player 501 match leaves the player index at 0 — the turn does NOT
advance to the next player (index 1); only the dart-in-turn advances. -/
theorem c3_counterexample :
    ((findById (handleThrowDart ⟨1, "A"⟩ (some 1) (some 20) (some 2)
        [sample501 32 501 1]).store 1).map
      (fun g => (g.current_player_index, g.current_dart, g.current_turn))) =
      some (0, 2, 1) ∧
    ((findById (handleThrowDart ⟨1, "A"⟩ (some 1) (some 20) (some 2)
        [sample501 32 501 1]).store 1).bind
      (fun g => g.throws.getLast?.map ThrowRec.is_bust)) = some true ∧
    ((findById (handleThrowDart ⟨1, "A"⟩ (some 1) (some 20) (some 2)
        [sample501 32 501 1]).store 1).bind
      (fun g => (g.players.find? (fun p => p.id = 1)).map Player.remaining_score)) =
      some 32 ∧
    (0 : Int) ≠ 1 := by
  refine ⟨by decide, by decide, by decide, by decide⟩

/-- Witness for the amended C3 at the concrete scenario state. -/
theorem c3_witness :
    (sample501 32 501 1).current_dart = 1 ∧
    ∃ g' cp',
      findById (handleThrowDart ⟨1, "A"⟩ (some 1) (some 20) (some 2)
        [sample501 32 501 1]).store 1 = some g' ∧
      g'.throws.getLast?.map ThrowRec.is_bust = some true ∧
      g'.players.find? (fun p => p.id = 1) = some cp' ∧
      cp'.remaining_score = 32 ∧
      g'.current_player_index = (advanceTurn (sample501 32 501 1)).current_player_index ∧
      g'.current_dart = (advanceTurn (sample501 32 501 1)).current_dart ∧
      g'.current_turn = (advanceTurn (sample501 32 501 1)).current_turn ∧
      (advanceTurn (sample501 32 501 1)).current_dart = 2 ∧
      (advanceTurn (sample501 32 501 1)).current_player_index =
        (sample501 32 501 1).current_player_index ∧
      (advanceTurn (sample501 32 501 1)).current_turn = (sample501 32 501 1).current_turn :=
  ⟨rfl, c3_bust_at_32 ⟨1, "A"⟩ [sample501 32 501 1] 1 (sample501 32 501 1)
    { id := 1, user_id := 1, player_order := 0, remaining_score := 32 }
    rfl rfl rfl (by decide) (by decide) rfl rfl rfl (by decide)⟩

/-! ### C9: the submitting connection influences only the recorded
`entered_by` field -/

/-- Erase the recording identity of a throw. -/
def eraseEnteredBy (t : ThrowRec) : ThrowRec := { t with entered_by := 0 }

/-- Erase the recording identities of a whole game record. -/
def eraseGameEnteredBy (g : LiveGame) : LiveGame :=
  { g with throws := g.throws.map eraseEnteredBy }

theorem erase_fields (a b : LiveGame)
    (h : eraseGameEnteredBy a = eraseGameEnteredBy b) :
    a.id = b.id ∧ a.game_type = b.game_type ∧ a.status = b.status ∧
    a.starting_score = b.starting_score ∧ a.created_by = b.created_by ∧
    a.current_player_index = b.current_player_index ∧
    a.current_dart = b.current_dart ∧ a.current_turn = b.current_turn ∧
    a.winner_player_id = b.winner_player_id ∧ a.players = b.players ∧
    a.throws.map eraseEnteredBy = b.throws.map eraseEnteredBy :=
  ⟨(congrArg LiveGame.id h :
      (eraseGameEnteredBy a).id = (eraseGameEnteredBy b).id),
   (congrArg LiveGame.game_type h :
      (eraseGameEnteredBy a).game_type = (eraseGameEnteredBy b).game_type),
   (congrArg LiveGame.status h :
      (eraseGameEnteredBy a).status = (eraseGameEnteredBy b).status),
   (congrArg LiveGame.starting_score h :
      (eraseGameEnteredBy a).starting_score = (eraseGameEnteredBy b).starting_score),
   (congrArg LiveGame.created_by h :
      (eraseGameEnteredBy a).created_by = (eraseGameEnteredBy b).created_by),
   (congrArg LiveGame.current_player_index h :
      (eraseGameEnteredBy a).current_player_index =
        (eraseGameEnteredBy b).current_player_index),
   (congrArg LiveGame.current_dart h :
      (eraseGameEnteredBy a).current_dart = (eraseGameEnteredBy b).current_dart),
   (congrArg LiveGame.current_turn h :
      (eraseGameEnteredBy a).current_turn = (eraseGameEnteredBy b).current_turn),
   (congrArg LiveGame.winner_player_id h :
      (eraseGameEnteredBy a).winner_player_id =
        (eraseGameEnteredBy b).winner_player_id),
   (congrArg LiveGame.players h :
      (eraseGameEnteredBy a).players = (eraseGameEnteredBy b).players),
   (congrArg LiveGame.throws h :
      (eraseGameEnteredBy a).throws = (eraseGameEnteredBy b).throws)⟩

/-- The completion checks read only the game type and the players. -/
theorem checkGameComplete_congr (a b : LiveGame) (htype : a.game_type = b.game_type)
    (hp : a.players = b.players) : checkGameComplete a = checkGameComplete b := by
  unfold checkGameComplete checkCricketComplete check01Complete
    checkAroundTheWorldComplete firstMaxByPoints closedAllNumbers
  rw [htype, hp]

theorem saveGame_map_erase (store : List LiveGame) (a b : LiveGame)
    (h : eraseGameEnteredBy a = eraseGameEnteredBy b) :
    (saveGame store a).map eraseGameEnteredBy =
    (saveGame store b).map eraseGameEnteredBy := by
  have hid : a.id = b.id := (erase_fields a b h).1
  unfold saveGame
  induction store with
  | nil => rfl
  | cons x rest ih =>
    simp only [List.map_cons, List.map_map] at ih ⊢
    by_cases hx : x.id = a.id
    · rw [if_pos hx, if_pos (by rw [hx, hid])]
      rw [h]
      exact congrArg _ ih
    · rw [if_neg hx, if_neg (by rw [← hid]; exact hx)]
      exact congrArg _ ih

theorem erase_finish_congr (a b : LiveGame) (w : Winner)
    (h : eraseGameEnteredBy a = eraseGameEnteredBy b) :
    eraseGameEnteredBy { a with
      status := GameStatus.finished
      winner_player_id := some w.winnerId } =
    eraseGameEnteredBy { b with
      status := GameStatus.finished
      winner_player_id := some w.winnerId } := by
  obtain ⟨f1, f2, _, f4, f5, f6, f7, f8, _, f10, f11⟩ := erase_fields a b h
  unfold eraseGameEnteredBy
  dsimp only
  rw [f1, f2, f4, f5, f6, f7, f8, f10, f11]

theorem erase_advance_congr (a b : LiveGame)
    (h : eraseGameEnteredBy a = eraseGameEnteredBy b) :
    eraseGameEnteredBy (advanceTurn a) = eraseGameEnteredBy (advanceTurn b) := by
  obtain ⟨f1, f2, f3, f4, f5, f6, f7, f8, f9, f10, f11⟩ := erase_fields a b h
  unfold advanceTurn eraseGameEnteredBy
  rw [f6, f7, f8, f10]
  by_cases hc : b.current_dart < 3
  · rw [if_pos hc, if_pos hc]
    dsimp only
    rw [f1, f2, f3, f4, f5, f9, f11]
  · rw [if_neg hc, if_neg hc]
    dsimp only
    rw [f1, f2, f3, f4, f5, f9, f11]

theorem erase_append_congr (g2 : LiveGame) (t1 t2 : ThrowRec)
    (ht : eraseEnteredBy t1 = eraseEnteredBy t2) :
    eraseGameEnteredBy { g2 with throws := g2.throws ++ [t1] } =
    eraseGameEnteredBy { g2 with throws := g2.throws ++ [t2] } := by
  unfold eraseGameEnteredBy
  dsimp only
  rw [List.map_append, List.map_append]
  simp only [List.map_cons, List.map_nil, ht]

/-- The store written by the completion block depends on the recorded
throw only up to its `entered_by` field, and not on the submitting
connection, the broadcast inputs or the throw id. -/
theorem finishOrAdvance_store_erase (gid1 gid2 : Nat) (ws1 ws2 : WsClient)
    (cp : Player) (seg : Option Int) (mult raw : Int) (b : Bool) (tid1 tid2 : Nat)
    (store : List LiveGame) (g2 : LiveGame) (t1 t2 : ThrowRec)
    (ht : eraseEnteredBy t1 = eraseEnteredBy t2) :
    (finishOrAdvance gid1 ws1 cp seg mult raw b tid1 store
      { g2 with throws := g2.throws ++ [t1] }).store.map eraseGameEnteredBy =
    (finishOrAdvance gid2 ws2 cp seg mult raw b tid2 store
      { g2 with throws := g2.throws ++ [t2] }).store.map eraseGameEnteredBy := by
  have hg3 := erase_append_congr g2 t1 t2 ht
  have hfields := erase_fields _ _ hg3
  have hcheck := checkGameComplete_congr _ _ hfields.2.1 hfields.2.2.2.2.2.2.2.2.2.1
  unfold finishOrAdvance
  rw [hcheck]
  cases hw : checkGameComplete { g2 with throws := g2.throws ++ [t2] } with
  | none =>
    dsimp only
    exact saveGame_map_erase store _ _ (erase_advance_congr _ _ hg3)
  | some w =>
    dsimp only
    exact saveGame_map_erase store _ _ (erase_finish_congr _ _ w hg3)

/-- C9: two `throw_dart` runs on the same store and payload that differ
only in the submitting connection produce stores that agree on every
match field â participants, scoring fields, turn triple, status, winner,
and every throw attribute â except the recorded `entered_by` identity:
the store, not the caller, resolves the acting participant. -/
theorem c9_identity_noninterference (ws1 ws2 : WsClient) (gameId : Option Nat)
    (segment multiplier : Option Int) (store : List LiveGame) :
    (handleThrowDart ws1 gameId segment multiplier store).store.map eraseGameEnteredBy =
    (handleThrowDart ws2 gameId segment multiplier store).store.map eraseGameEnteredBy := by
  unfold handleThrowDart
  cases gameId with
  | none => rfl
  | some gid =>
    dsimp only
    cases hfind : findById store gid with
    | none => rfl
    | some g =>
      dsimp only
      by_cases hst : g.status ≠ GameStatus.playing
      · rw [if_pos hst, if_pos hst]
      · rw [if_neg hst, if_neg hst]
        cases hcp : jsIndex g.players g.current_player_index with
        | none => rfl
        | some cp =>
          dsimp only
          cases hproc : processThrow g cp.id (jsSegOrNull segment) (jsMultOr1 multiplier) with
          | none => rfl
          | some r =>
            obtain ⟨g1, outcome⟩ := r
            dsimp only
            exact finishOrAdvance_store_erase gid gid ws1 ws2 cp _ _ _ _ _ _ store _ _ _ rfl

end GoodGrouping
